import Mathlib

/-!
Verification of the vlc-libde265 plugin (HEVC decoder module and raw
bitstream demuxer) against its natural-language specification.

The development shallowly embeds the control logic of the C sources:

* the packetized (length-prefixed) framing loop of `Decode`
  (src/src/codec/libde265dec.c, lines 401-432),
* the hvcC-style extra-data walk (lines 286-328),
* the lateness / decode-ratio state machine of `Decode`
  (lines 277-284, 361-390, 484-501) together with `SetDecodeRatio`
  (lines 244-258) and the session initialisation in `Open` (lines 873-878),
* the zero-copy buffer validation of `GetPicture` / `GetBuffer`
  (lines 632-793),
* the per-plane bit-depth repacking of the copy path (lines 543-607),
* the start-code scanner and demux step of the raw-stream demuxer
  (`SearchStartcode` / `Demux`, lines 1477-1578).

Machine integers are embedded as `Nat` / `Int`; byte buffers are
`List Nat` whose elements stand for `uint8` values. Calls into external
collaborators (the libde265 codec, the VLC host) are modelled by taking
their results as explicit inputs.
-/

namespace VlcDe265

/-! ## Bitstream framer: packetized (length-prefixed) mode

Model of the `while (i_buffer >= sys->length_size)` loop in `Decode`.
A length prefix of `ls` bytes is read big-endian
(`length = (length << 8) | p_buffer[i]`), the prefix is consumed, and if
the decoded length exceeds the remaining bytes the buffer is dropped with
a BufferUnderrun error; otherwise the payload is pushed as one access
unit and the loop repeats. The loop exits without error as soon as fewer
than `ls` bytes remain. -/

/-- Big-endian accumulation of a list of bytes, exactly as the C loop
`length = (length << 8) | p_buffer[i]` computes it for bytes below 256. -/
def readBE (bytes : List Nat) : Nat :=
  bytes.foldl (fun acc b => acc * 256 + b) 0

/-- Fuel-indexed version of the framing loop. One unit of fuel is spent
per iteration; since every iteration consumes at least `ls ≥ 1` bytes,
`buf.length + 1` fuel always suffices (see `frameLoop`). Returns the
pushed access units in order, the unconsumed suffix of the buffer
(starting at the offending record in the error case), and the error
flag (true = BufferUnderrun raised, buffer dropped). -/
def frameLoopF : Nat → Nat → List Nat → List (List Nat) × List Nat × Bool
  | 0, _, buf => ([], buf, false)
  | fuel + 1, ls, buf =>
    if buf.length < ls then ([], buf, false)
    else
      let len := readBE (buf.take ls)
      let rest := buf.drop ls
      if rest.length < len then ([], buf, true)
      else
        let r := frameLoopF fuel ls (rest.drop len)
        (rest.take len :: r.1, r.2.1, r.2.2)

/-- The packetized framing loop of `Decode` with prefix size `ls`
(1 to 4 in the source, default 4). -/
def frameLoop (ls : Nat) (buf : List Nat) : List (List Nat) × List Nat × Bool :=
  frameLoopF (buf.length + 1) ls buf

/-- Total number of input bytes accounted for by the pushed access
units: each unit costs its own length plus `ls` bytes of prefix. -/
def framedBytes (ls : Nat) (pushed : List (List Nat)) : Nat :=
  (pushed.map (fun u => ls + u.length)).sum

/-! ## Extra-data parser (hvcC-style configuration blob)

Model of the `sys->check_extra` block of `Decode`. The inner walk over
parameter-set arrays is split into `walkNALs` (the `for j` loop over NAL
units of one array) and `walkArrays` (the `for i` loop over arrays).
Index accesses use `List.getD` with default 0; every access is guarded
by the same bound checks the C code performs first. -/

/-- The inner `for (int j=0; j<nal_count; j++)` loop: reads a 2-byte
big-endian NAL size, checks it against the blob length, and pushes the
payload. Returns the accumulated pushes, the final position, and whether
a buffer-underrun error aborted the walk. -/
def walkNALs (extra : List Nat) (acc : List (List Nat)) (pos : Nat) :
    Nat → List (List Nat) × Nat × Bool
  | 0 => (acc, pos, false)
  | count + 1 =>
    if extra.length < pos + 2 then (acc, pos, true)
    else
      let nal_size := extra.getD pos 0 * 256 + extra.getD (pos + 1) 0
      if extra.length < pos + 2 + nal_size then (acc, pos, true)
      else
        walkNALs extra (acc ++ [(extra.drop (pos + 2)).take nal_size])
          (pos + 2 + nal_size) count

/-- The outer `for (int i=0; i<num_param_sets; i++)` loop: skips the
1-byte flags/type field, reads the 2-byte big-endian NAL count and runs
`walkNALs` for each array. -/
def walkArrays (extra : List Nat) (acc : List (List Nat)) (pos : Nat) :
    Nat → List (List Nat) × Nat × Bool
  | 0 => (acc, pos, false)
  | count + 1 =>
    if extra.length < pos + 3 then (acc, pos, true)
    else
      let nal_count := extra.getD (pos + 1) 0 * 256 + extra.getD (pos + 2) 0
      let r := walkNALs extra acc (pos + 3) nal_count
      if r.2.2 then (r.1, r.2.1, true)
      else walkArrays extra r.1 r.2.1 count

/-- Outcome of parsing the out-of-band configuration blob: the resulting
packetized flag and length-prefix size, the access units pushed to prime
the decoder, and whether a framing error aborted the walk. -/
structure ExtraResult where
  packetized : Bool
  length_size : Nat
  pushed : List (List Nat)
  err : Bool
  deriving Repr, DecidableEq

/-- Model of the extra-data inspection in `Decode` for a non-empty blob.
If the first bytes look like a raw parameter-set bitstream (not
`00 00 0x` with `x ≤ 1`), the blob is an hvcC-style record: the low two
bits of byte 21 plus one give the length-prefix size, byte 22 the number
of parameter-set arrays, which are walked from position 23. Otherwise
the whole blob is pushed as one non-packetized chunk. `cur_ls` is the
session length-prefix size before the call (kept when the blob is too
short to carry one). -/
def parseExtra (cur_ls : Nat) (extra : List Nat) : ExtraResult :=
  if 3 < extra.length ∧
      (extra.getD 0 0 ≠ 0 ∨ extra.getD 1 0 ≠ 0 ∨ 1 < extra.getD 2 0) then
    if 22 < extra.length then
      let ls := extra.getD 21 0 % 4 + 1
      let num_param_sets := extra.getD 22 0
      let r := walkArrays extra [] 23 num_param_sets
      ⟨true, ls, r.1, r.2.2⟩
    else ⟨true, cur_ls, [], false⟩
  else ⟨false, cur_ls, [extra], false⟩

/-! ## Lateness controller and decode-ratio state machine

Model of the session state (`decoder_sys_t`) and of the control flow of
one `Decode` call, abstracting the external collaborators: the codec is
represented by the list of images it produces during the call (each
image carrying the display date computed by the host clock and the
values of the `mdate()` samples taken while evaluating it), and push or
flush results are assumed benign, since the claims under verification do
not exercise codec hard errors. -/

/-- Session configuration fixed at `Open` time: the pacing flag of the
host (`dec->b_pace_control`) and the two filter-disable options. -/
structure Config where
  pace_control : Bool
  disable_deblocking : Bool
  disable_sao : Bool
  deriving Repr, DecidableEq

/-- The mutable session state of `decoder_sys_t`, plus a model of the
decoder-side filter parameters (`none` until the first
`de265_set_parameter_bool` call). -/
structure DecState where
  late_frames : Int
  late_frames_start : Int
  decode_ratio : Int
  check_extra : Bool
  packetized : Bool
  length_size : Nat
  direct_rendering_used : Int
  dec_deblocking : Option Bool
  dec_sao : Option Bool
  deriving Repr, DecidableEq

/-- One decoded image as seen by the lateness controller:
`display_date` is the value returned by `decoder_GetDisplayDate`, `now`
the `mdate()` sample it is compared against, `now2` the `mdate()` sample
recorded as the streak start when the counter reaches one. -/
structure Img where
  display_date : Int
  now : Int
  now2 : Int
  deriving Repr, DecidableEq

/-- The inputs of one `Decode` call: the block flags, the `mdate()`
sample taken at the five-second age check, the out-of-band extra data
(empty when `i_extra` is zero), the input buffer bytes, and the images
the codec produces while draining. -/
structure CallInput where
  disc : Bool
  corrupt : Bool
  preroll : Bool
  now_age : Int
  extra : List Nat
  buffer : List Nat
  images : List Img
  deriving Repr, DecidableEq

/-- Observable outcome of one `Decode` call: the buffer was dropped via
the error path, or the call completed with no picture, or a picture was
returned. -/
inductive Outcome where
  | dropped
  | noPicture
  | picture
  deriving Repr, DecidableEq

/-- Model of `SetDecodeRatio`: only acts when the ratio changes; below
100 it force-disables deblocking and SAO, at 100 it restores the
configured filter settings. -/
def setDecodeRatio (cfg : Config) (s : DecState) (ratio : Int) : DecState :=
  if ratio ≠ s.decode_ratio then
    { s with
      decode_ratio := ratio,
      dec_deblocking := some (if ratio < 100 then true else cfg.disable_deblocking),
      dec_sao := some (if ratio < 100 then true else cfg.disable_sao) }
  else s

/-- Per-image lateness evaluation (the tail of the drain loop in
`Decode`): the display date is left at zero when prerolling; an image
with positive display date not later than now increments the streak,
recording the streak start on the first increment; any other image
resets the ratio to 100 and the streak to zero. -/
def evalImage (cfg : Config) (prerolling : Bool) (s : DecState) (img : Img) :
    DecState :=
  let dd : Int := if prerolling then 0 else img.display_date
  if 0 < dd ∧ dd ≤ img.now then
    let s := { s with late_frames := s.late_frames + 1 }
    if s.late_frames = 1 then { s with late_frames_start := img.now2 } else s
  else
    let s := setDecodeRatio cfg s 100
    { s with late_frames := 0 }

/-- The image drain loop: with `draw` set it evaluates the first
available image and returns a picture; otherwise it evaluates every
available image (the preroll or load-shedding skip loop) and returns no
picture. An empty image list means the codec produced nothing. -/
def drainImages (cfg : Config) (prerolling draw : Bool) :
    DecState → List Img → DecState × Outcome
  | s, [] => (s, Outcome.noPicture)
  | s, img :: rest =>
    let s := evalImage cfg prerolling s img
    if draw then (s, Outcome.picture)
    else drainImages cfg prerolling draw s rest

/-- One-time extra-data handling: a no-op for an empty blob, otherwise
`parseExtra` updates the framing state (the priming pushes themselves go
to the codec and are not recorded in the session state). Returns the
error flag of the walk. -/
def applyExtra (s : DecState) (extra : List Nat) : DecState × Bool :=
  if extra.length = 0 then (s, false)
  else
    let r := parseExtra s.length_size extra
    ({ s with packetized := r.packetized, length_size := r.length_size }, r.err)

/-- The push-and-drain tail of `Decode`: a non-empty buffer is framed
(packetized mode may raise BufferUnderrun and drop the buffer); an empty
buffer flushes the codec. Push and flush results are assumed benign. -/
def pushAndDrain (cfg : Config) (s : DecState) (inp : CallInput)
    (prerolling draw : Bool) : DecState × Outcome :=
  if inp.buffer.length ≠ 0 ∧ s.packetized ∧ (frameLoop s.length_size inp.buffer).2.2 then
    (s, Outcome.dropped)
  else drainImages cfg prerolling draw s inp.images

/-- The lateness checks of `Decode` after the preroll handling: the
five-second age drop (decrementing the streak), then the soft threshold
(more than 4 late frames: stop drawing and, below 12, reduce the ratio
to zero) and the hard threshold (12 or more late frames: drop and
decrement), then framing, pushing and draining. -/
def lateCheck (cfg : Config) (s : DecState) (inp : CallInput)
    (prerolling draw : Bool) : DecState × Outcome :=
  if cfg.pace_control = false ∧ 0 < s.late_frames ∧
      5000000 < inp.now_age - s.late_frames_start then
    ({ s with late_frames := s.late_frames - 1 }, Outcome.dropped)
  else if cfg.pace_control = false ∧ 4 < s.late_frames then
    if s.late_frames < 12 then
      pushAndDrain cfg (setDecodeRatio cfg s 0) inp prerolling false
    else
      ({ s with late_frames := s.late_frames - 1 }, Outcome.dropped)
  else
    pushAndDrain cfg s inp prerolling draw

/-- The preroll handling of `Decode`: a preroll block resets the ratio
and the streak and suppresses drawing; then the lateness checks run. -/
def lateGate (cfg : Config) (s : DecState) (inp : CallInput) :
    DecState × Outcome :=
  let prerolling := inp.preroll
  let s :=
    if prerolling then { setDecodeRatio cfg s 100 with late_frames := 0 }
    else s
  let draw := ¬ prerolling
  lateCheck cfg s inp prerolling draw

/-- One `Decode` call. Follows the source control flow in order:
discontinuity or corruption resets ratio and streak and drops the
buffer (the discontinuity case additionally resets the codec); then the
one-time extra-data parse (whose framing errors also drop the buffer);
then the preroll handling and lateness policy of `lateGate`. -/
def decodeCall (cfg : Config) (s : DecState) (inp : CallInput) :
    DecState × Outcome :=
  if inp.disc ∨ inp.corrupt then
    ({ setDecodeRatio cfg s 100 with late_frames := 0 }, Outcome.dropped)
  else
    let se :=
      if s.check_extra then applyExtra { s with check_extra := false } inp.extra
      else (s, false)
    if se.2 then (se.1, Outcome.dropped)
    else lateGate cfg se.1 inp

/-- The session state set up by `Open`: streak zero, ratio 100, extra
data still to be checked, default length-prefix size 4, packetized flag
taken from the input format, direct rendering undecided. The
uninitialised `late_frames_start` field is modelled as zero; the source
reads it only after the first streak increment has stored a value. -/
def initState (packetized : Bool) : DecState :=
  { late_frames := 0
    late_frames_start := 0
    decode_ratio := 100
    check_extra := true
    packetized := packetized
    length_size := 4
    direct_rendering_used := -1
    dec_deblocking := none
    dec_sao := none }

/-- Iterated `Decode` calls starting from a given state. -/
def runCalls (cfg : Config) (s : DecState) (inputs : List CallInput) : DecState :=
  inputs.foldl (fun s inp => (decodeCall cfg s inp).1) s

/-! ## Buffer bridge: zero-copy validation (`GetPicture` / `GetBuffer`)

The host picture returned by `decoder_NewPicture` and the chroma
description returned by `vlc_fourcc_GetChromaDescription` are external
collaborator outputs and enter the model as inputs. -/

/-- The de265 chroma classes relevant to `GetPicture`. -/
inductive ChromaFmt where
  | mono
  | c420
  | c422
  | c444
  deriving Repr, DecidableEq

/-- The VLC output pixel formats `GetVlcCodec` can choose. -/
inductive VCodec where
  | GREY
  | I420
  | I420_9L
  | I420_10L
  | I420_16L
  | I422
  | I422_9L
  | I422_10L
  | I422_16L
  | I444
  | I444_9L
  | I444_10L
  | I444_16L
  deriving Repr, DecidableEq

/-- Model of `GetVlcCodec`: maps the decoded chroma class and bits per
pixel to a VLC pixel format, `none` standing for `CODEC_UNKNOWN`. The
build configuration with the 16-bit formats available is modelled. -/
def GetVlcCodec (chroma : ChromaFmt) (bits_per_pixel : Nat) : Option VCodec :=
  match chroma with
  | ChromaFmt.mono => some VCodec.GREY
  | ChromaFmt.c420 =>
    if bits_per_pixel = 8 then some VCodec.I420
    else if bits_per_pixel = 9 then some VCodec.I420_9L
    else if bits_per_pixel = 10 then some VCodec.I420_10L
    else if 10 < bits_per_pixel ∧ bits_per_pixel ≤ 16 then some VCodec.I420_16L
    else none
  | ChromaFmt.c422 =>
    if bits_per_pixel = 8 then some VCodec.I422
    else if bits_per_pixel = 9 then some VCodec.I422_9L
    else if bits_per_pixel = 10 then some VCodec.I422_10L
    else if 10 < bits_per_pixel ∧ bits_per_pixel ≤ 16 then some VCodec.I422_16L
    else none
  | ChromaFmt.c444 =>
    if bits_per_pixel = 8 then some VCodec.I444
    else if bits_per_pixel = 9 then some VCodec.I444_9L
    else if bits_per_pixel = 10 then some VCodec.I444_10L
    else if 10 < bits_per_pixel ∧ bits_per_pixel ≤ 16 then some VCodec.I444_16L
    else none

/-- The geometry request of the codec (`struct de265_image_spec`),
restricted to the fields `GetPicture` reads for its checks. -/
structure ImageSpec where
  width : Nat
  height : Nat
  alignment : Nat
  deriving Repr, DecidableEq

/-- One plane of a host picture: pitch, line count, pixel stride and
base address (as a machine integer, for the alignment check). -/
structure HostPlane where
  pitch : Nat
  lines : Nat
  pixel_pitch : Nat
  addr : Nat
  deriving Repr, DecidableEq

/-- A host picture returned by `decoder_NewPicture`. -/
structure HostPic where
  planes : List HostPlane
  deriving Repr, DecidableEq

/-- The chroma description the host reports for a pixel format: its
bits per pixel and the per-plane width subsampling factors
(numerator and denominator). -/
structure ChromaDesc where
  pixel_bits : Nat
  plane_factors : List (Nat × Nat)
  deriving Repr, DecidableEq

/-- Result of `GetPicture`: either a rejection (with the flag telling
whether a host picture had already been allocated and was released via
`decoder_DeletePicture`) or an accepted picture. -/
inductive GPResult where
  | reject (released : Bool)
  | accept (pic : HostPic)
  deriving Repr, DecidableEq

/-- The `(x + alignment - 1) / alignment * alignment` rounding used by
`GetPicture`. -/
def alignUp (x alignment : Nat) : Nat :=
  (x + alignment - 1) / alignment * alignment

/-- Model of `GetPicture`: computes the aligned width, validates the
geometry bound, the uniform per-plane bit depth (unless monochrome), the
pixel-format mapping, the output bit depth, the plane-width alignment,
and finally the host picture itself: first-plane pitch at least the
aligned width times the pixel stride, enough lines, and every plane
pitch and base address aligned. Checks before `decoder_NewPicture`
reject without a release; checks after it release the picture. -/
def GetPicture (spec : ImageSpec) (chroma : ChromaFmt)
    (bpp0 bpp1 bpp2 : Nat) (dsc : ChromaDesc) (newPic : Option HostPic) :
    GPResult :=
  let width := alignUp spec.width spec.alignment
  let height := spec.height
  if width = 0 ∨ height = 0 ∨ 8192 < width ∨ 8192 < height then
    GPResult.reject false
  else if chroma ≠ ChromaFmt.mono ∧ (bpp0 ≠ bpp1 ∨ bpp0 ≠ bpp2 ∨ bpp1 ≠ bpp2) then
    GPResult.reject false
  else
    match GetVlcCodec chroma bpp0 with
    | none => GPResult.reject false
    | some _ =>
      if dsc.pixel_bits < bpp0 then GPResult.reject false
      else if ¬ (dsc.plane_factors.all fun f =>
          width * f.1 / f.2 = alignUp (width * f.1 / f.2) spec.alignment) then
        GPResult.reject false
      else
        match newPic with
        | none => GPResult.reject false
        | some pic =>
          let p0 := pic.planes.headD ⟨0, 0, 0, 0⟩
          if p0.pitch < width * p0.pixel_pitch then GPResult.reject true
          else if p0.lines < height then GPResult.reject true
          else if ¬ (pic.planes.all fun p =>
              p.pitch % spec.alignment = 0 ∧ p.addr % spec.alignment = 0) then
            GPResult.reject true
          else GPResult.accept pic

/-- Observable effect of one `GetBuffer` call on the sticky
`direct_rendering_used` flag: the new flag value, whether a transition
was logged, and whether the default codec allocator was used. -/
structure BufferCallEffect where
  dru : Int
  logged : Bool
  used_default : Bool
  deriving Repr, DecidableEq

/-- Model of the flag handling in `GetBuffer`: when `GetPicture` fails
the flag is set to zero (disabled) and the transition logged only if it
was not already zero, and the default allocator runs; on success the
flag is set to one, logged only if it was not already one. -/
def getBufferStep (dru : Int) (res : GPResult) : BufferCallEffect :=
  match res with
  | GPResult.reject _ =>
    if dru ≠ 0 then ⟨0, true, true⟩ else ⟨dru, false, true⟩
  | GPResult.accept _ =>
    if dru ≠ 1 then ⟨1, true, false⟩ else ⟨dru, false, false⟩

/-! ## Copy path: per-plane bit-depth repacking

Model of the per-plane copy loop of `Decode` (lines 543-607). The loop
reinterprets rows as 16-bit samples in the shifting branches; the model
works at sample granularity: for the 16-bit branches the source row is
a list of 16-bit sample values and `size / 2` samples are copied, for
the 8-bit widening branch and the plain copy it is a list of bytes. -/

/-- Which of the four copy branches runs for a plane, as selected by the
chain of comparisons between the plane bit depth and the output format
bit depth (`max_bits_per_pixel` in the source). -/
inductive CopyMode where
  | shr (shift : Nat)
  | shl16 (shift : Nat)
  | shl8 (shift : Nat)
  | bytecopy
  deriving Repr, DecidableEq

/-- Branch selection of the copy loop: more bits than the output format
shifts right by the difference; fewer bits but more than 8 shifts left;
exactly 8 bits with a wider output widens with a left shift; otherwise
the rows are copied with `memcpy`. -/
def copyMode (plane_bits max_bits : Nat) : CopyMode :=
  if max_bits < plane_bits then CopyMode.shr (plane_bits - max_bits)
  else if plane_bits < max_bits ∧ 8 < plane_bits then
    CopyMode.shl16 (max_bits - plane_bits)
  else if plane_bits < max_bits ∧ plane_bits = 8 then
    CopyMode.shl8 (max_bits - plane_bits)
  else CopyMode.bytecopy

/-- The per-line byte budget `size = __MIN(src_stride, dst_stride)`. -/
def lineSiz (src_stride dst_stride : Nat) : Nat :=
  min src_stride dst_stride

/-- The samples one line copy writes, given the branch, the byte budget
`siz` and the source row samples: the 16-bit branches process
`siz / 2` samples with the shift applied (left shifts wrap at the
16-bit store), the 8-bit widening branch processes `siz` source bytes,
and the plain branch copies `siz` bytes unchanged. -/
def copyLineSamples : CopyMode → Nat → List Nat → List Nat
  | CopyMode.shr sh, siz, src => (src.take (siz / 2)).map fun v => v / 2 ^ sh
  | CopyMode.shl16 sh, siz, src => (src.take (siz / 2)).map fun v => v * 2 ^ sh % 65536
  | CopyMode.shl8 sh, siz, src => (src.take siz).map fun v => v * 2 ^ sh % 65536
  | CopyMode.bytecopy, siz, src => src.take siz

/-- Bytes read from the source per line in each branch. -/
def bytesReadPerLine : CopyMode → Nat → Nat
  | CopyMode.shr _, siz => 2 * (siz / 2)
  | CopyMode.shl16 _, siz => 2 * (siz / 2)
  | CopyMode.shl8 _, siz => siz
  | CopyMode.bytecopy, siz => siz

/-- Bytes written to the destination per line in each branch: the 8-bit
widening branch stores a 16-bit sample for every source byte and hence
writes twice the byte budget. -/
def bytesWrittenPerLine : CopyMode → Nat → Nat
  | CopyMode.shr _, siz => 2 * (siz / 2)
  | CopyMode.shl16 _, siz => 2 * (siz / 2)
  | CopyMode.shl8 _, siz => 2 * siz
  | CopyMode.bytecopy, siz => siz

/-! ## Raw-stream demuxer: start-code scan and demux step

Model of `SearchStartcode` and `Demux`. The incrementally grown peek
window is modelled by the full remaining stream contents `data`; the
failing `Peek` that ends the scan corresponds to reaching the end of
that data. -/

/-- Fuel-indexed scan loop of `SearchStartcode` from position `pos`:
stops with no result when fewer than four bytes remain past `pos`
(the failing re-peek), otherwise recognises the three-byte start code
`00 00 01` first, then the four-byte `00 00 00 01`, else advances by
one byte. Returns the position and the start-code length. One unit of
fuel is spent per scanned position, so `data.length + 1 - pos` fuel
always suffices (the loop stops before `data.length - 4`). -/
def searchSCF (data : List Nat) : Nat → Nat → Option (Nat × Nat)
  | 0, _ => none
  | fuel + 1, pos =>
    if data.length ≤ pos + 4 then none
    else if data.getD pos 0 = 0 ∧ data.getD (pos + 1) 0 = 0 ∧
        data.getD (pos + 2) 0 = 1 then some (pos, 3)
    else if data.getD pos 0 = 0 ∧ data.getD (pos + 1) 0 = 0 ∧
        data.getD (pos + 2) 0 = 0 ∧ data.getD (pos + 3) 0 = 1 then some (pos, 4)
    else searchSCF data fuel (pos + 1)

/-- Model of `SearchStartcode` on the peeked data from position `pos`. -/
def searchStartcode (data : List Nat) (pos : Nat) : Option (Nat × Nat) :=
  searchSCF data (data.length + 1 - pos) pos

/-- What one `Demux` call produces: how many bytes the emitted block
consumes from the front of the stream, the parsed NAL header fields,
the new-picture decision, and whether the clock reference is signalled
before the block and the presentation clock incremented after it. -/
structure StepResult where
  consumed : Nat
  nal_type : Nat
  layer_id : Nat
  temporal_id_plus1 : Nat
  first_slice_flag : Nat
  new_picture : Bool
  pcr_signal : Bool
  pcr_increment : Bool
  deriving Repr, DecidableEq

/-- Model of one `Demux` call on the remaining stream `data`: finds the
next start code (none means end of stream or the no-start-code error,
both ending demuxing), requires two header bytes past it, parses the
NAL header bit fields, finds the end at the next start code or the end
of the peeked data, and emits a block of `end - start` bytes taken from
the front of the stream. The clock reference is signalled before the
block exactly when the access unit starts a new picture (a slice NAL
type below 32 whose first-slice flag bit is set), and the presentation
clock is incremented after it under the same condition. -/
def demuxStep (data : List Nat) : Option StepResult :=
  match searchStartcode data 0 with
  | none => none
  | some sc =>
    let start := sc.1
    let code_length := sc.2
    if data.length < start + code_length + 2 then none
    else
      let h1 := data.getD (start + code_length) 0
      let h2 := data.getD (start + code_length + 1) 0
      let ty := h1 / 2 % 64
      let layer := h1 % 2 * 32 + h2 / 8 % 32
      let tid1 := h2 % 8
      let fin :=
        match searchStartcode data (start + code_length + 2) with
        | some sc2 => sc2.1
        | none => data.length
      let flag := data.getD (start + code_length + 2) 0 / 128 % 2
      let np : Bool := if ty < 32 then flag == 1 else false
      some
        { consumed := fin - start
          nal_type := ty
          layer_id := layer
          temporal_id_plus1 := tid1
          first_slice_flag := flag
          new_picture := np
          pcr_signal := np
          pcr_increment := np }

/-- Iterated `Demux` calls: each call consumes its block from the front
of the stream; the produced blocks are returned in order. Fuel bounds
the number of calls; `data.length` calls always suffice because every
block is non-empty. -/
def demuxRun : Nat → List Nat → List (List Nat)
  | 0, _ => []
  | fuel + 1, data =>
    match demuxStep data with
    | none => []
    | some r => data.take r.consumed :: demuxRun fuel (data.drop r.consumed)

/-! ## Concrete scenario inputs used by the theorems below -/

/-- A session configuration with host pacing off and both filters kept
enabled, as exercised by the lateness-streak scenario. -/
def lateCfg : Config := ⟨false, false, false⟩

/-- A decoded image that is late: display date 1, clock sample 5 at the
comparison, clock sample 42 at the streak-start recording. -/
def lateImg : Img := ⟨1, 5, 42⟩

/-- A decoded image that is on time: display date 6 lies in the future
of the clock sample 5. -/
def onTimeImg : Img := ⟨6, 5, 0⟩

/-- One ordinary decode call producing a single late image. -/
def lateCall : CallInput := ⟨false, false, false, 0, [], [], [lateImg]⟩

/-- One ordinary decode call producing a single on-time image. -/
def onTimeCall : CallInput := ⟨false, false, false, 0, [], [], [onTimeImg]⟩

/-- The session state after feeding `n` consecutive late images, one
per decode call, from a fresh session. -/
def lateRun : Nat → DecState
  | 0 => initState false
  | n + 1 => (decodeCall lateCfg (lateRun n) lateCall).1

/-- A synthetic hvcC-style configuration blob: version 0, a non-zero
byte at offset 1 (profile space), zero padding up to the length-size
byte `ls` at offset 21, one parameter-set array at offset 23 (type 33,
NAL count 1) holding a single NAL with 2-byte big-endian size 5
followed by the 5-byte payload `p`. -/
def hvcCBlob (ls : Nat) (p : List Nat) : List Nat :=
  [0, 1, 0, 0, 0, 0, 0, 0, 0, 0, 0, 0, 0, 0, 0, 0, 0, 0, 0, 0, 0,
   ls, 1, 33, 0, 1, 0, 5] ++ p

/-- A geometry request of 64 x 48 with alignment 1. -/
def zcSpec : ImageSpec := ⟨64, 48, 1⟩

/-- A host chroma description with 8 bits per pixel and one full-width
plane. -/
def zcDsc : ChromaDesc := ⟨8, [(1, 1)]⟩

/-- A host picture whose only plane has pitch 32, too small for the
64-pixel-wide single-byte-stride image it should back. -/
def zcPic : HostPic := ⟨[⟨32, 48, 1, 0⟩]⟩

/-- A raw HEVC stream: a three-byte start code, a slice NAL header
(type 1) with first-slice flag set in the following byte, then a
four-byte start code and a VPS NAL (type 32). -/
def demoStream : List Nat := [0, 0, 1, 2, 1, 170, 0, 0, 0, 1, 64, 1, 16]

/-- A pacing-off configuration for the drop-path scenario. -/
def dropCfg : Config := ⟨false, false, false⟩

/-- A mid-streak session state: 3 late frames, streak started at clock
value 0. -/
def dropState : DecState :=
  { late_frames := 3
    late_frames_start := 0
    decode_ratio := 100
    check_extra := false
    packetized := false
    length_size := 4
    direct_rendering_used := -1
    dec_deblocking := none
    dec_sao := none }

/-- A decode call whose age-check clock sample lies six seconds past
the streak start. -/
def dropInput : CallInput := ⟨false, false, false, 6000000, [], [], []⟩

/-- A configuration used by the reset-idempotence witness. -/
def resetCfg : Config := ⟨true, false, true⟩

/-- A decode call flagged as a stream discontinuity. -/
def resetInput : CallInput := ⟨true, false, false, 0, [], [], []⟩

/-- A configuration used by the ratio-invariant witness. -/
def invCfg : Config := ⟨false, true, false⟩

/-- A configuration used by the on-time-reset witness. -/
def ontimeCfg : Config := ⟨false, false, false⟩

/-- A decoded image whose display date is zero, as produced when the
host clock returns unknown. -/
def unknownDateImg : Img := ⟨0, 10, 0⟩

/-- Helper for C9: the reachability invariant tying the decode ratio to
the decoder-side filter parameters: at ratio 0 both filters are forced
off; at ratio 100 the filters are either untouched since session start
or restored to the configured values. -/
def ratioFilterInv (cfg : Config) (s : DecState) : Prop :=
  (s.decode_ratio = 0 ∧ s.dec_deblocking = some true ∧ s.dec_sao = some true) ∨
  (s.decode_ratio = 100 ∧
    ((s.dec_deblocking = none ∧ s.dec_sao = none) ∨
     (s.dec_deblocking = some cfg.disable_deblocking ∧
      s.dec_sao = some cfg.disable_sao)))


/-! ## C1: packetized framing -/

/-- Helper for C1: the invariant of the fuel-indexed framing loop. With
enough fuel, the pushed units plus their prefixes account for the input
up to the returned rest; without an error the rest is a fragment
shorter than the prefix size, and with an error the rest starts at a
record whose decoded length exceeds the bytes remaining after its
prefix. -/
lemma frameLoopF_spec (ls : Nat) (hls : 1 ≤ ls) :
    ∀ fuel buf, buf.length < fuel →
      framedBytes ls (frameLoopF fuel ls buf).1 +
        (frameLoopF fuel ls buf).2.1.length = buf.length ∧
      ((frameLoopF fuel ls buf).2.2 = false →
        (frameLoopF fuel ls buf).2.1.length < ls) ∧
      ((frameLoopF fuel ls buf).2.2 = true →
        ls ≤ (frameLoopF fuel ls buf).2.1.length ∧
        (frameLoopF fuel ls buf).2.1.length - ls <
          readBE ((frameLoopF fuel ls buf).2.1.take ls)) := by
  intro fuel
  induction fuel with
  | zero => intro buf h; omega
  | succ n ih =>
    intro buf hlen
    simp only [frameLoopF]
    by_cases h1 : buf.length < ls
    · simp [h1, framedBytes]
    · simp only [h1, if_false]
      by_cases h2 : (buf.drop ls).length < readBE (buf.take ls)
      · simp only [h2, if_true]
        have h2' : buf.length - ls < readBE (buf.take ls) := by
          simpa using h2
        refine ⟨by simp [framedBytes], by simp, fun _ => ⟨by omega, h2'⟩⟩
      · simp only [h2, if_false]
        have hfuel : ((buf.drop ls).drop (readBE (buf.take ls))).length < n := by
          simp only [List.length_drop]
          omega
        obtain ⟨hs, hf, ht⟩ := ih ((buf.drop ls).drop (readBE (buf.take ls))) hfuel
        refine ⟨?_, hf, ht⟩
        simp only [framedBytes, List.map_cons, List.sum_cons] at hs ⊢
        simp only [List.length_take, List.length_drop] at hs h2 ⊢
        omega

/-- C1 counterexample: the one-byte buffer 07 ends mid-prefix in
4-byte packetized mode, yet the framing loop raises no BufferUnderrun
error (the error flag is false) and the pushed units do not account for
the buffer length, contradicting the claim that a buffer ending
mid-prefix raises the error and that the partition always sums exactly
to the buffer length. -/
theorem packetized_framing_midPrefix_silent :
    frameLoop 4 [7] = ([], [7], false) ∧
    framedBytes 4 (frameLoop 4 [7]).1 ≠ List.length [7] := by
  decide

/-- C1 (amended): in packetized mode with prefix size ls at least 1,
the framing loop pushes access units in order whose lengths plus ls
bytes per prefix account for the whole buffer up to the unconsumed
rest. Without a framing error the rest is a trailing fragment shorter
than ls that is silently discarded (no error is raised for a buffer
ending mid-prefix); a BufferUnderrun error is raised exactly when a
decoded length field exceeds the bytes remaining after its prefix, in
which case the rest starts at that bad record, so nothing past it is
pushed and the buffer is dropped. -/
theorem packetized_framing_spec (ls : Nat) (hls : 1 ≤ ls) (buf : List Nat) :
    framedBytes ls (frameLoop ls buf).1 + (frameLoop ls buf).2.1.length =
      buf.length ∧
    ((frameLoop ls buf).2.2 = false → (frameLoop ls buf).2.1.length < ls) ∧
    ((frameLoop ls buf).2.2 = true →
      ls ≤ (frameLoop ls buf).2.1.length ∧
      (frameLoop ls buf).2.1.length - ls <
        readBE ((frameLoop ls buf).2.1.take ls)) :=
  frameLoopF_spec ls hls (buf.length + 1) buf (Nat.lt_succ_self _)

/-- C1 witness: the framing specification applied to the concrete
buffer 00 00 00 02 09 09 with the default 4-byte prefix. -/
theorem packetized_framing_spec_witness :
    1 ≤ 4 ∧
    (framedBytes 4 (frameLoop 4 [0, 0, 0, 2, 9, 9]).1 +
        (frameLoop 4 [0, 0, 0, 2, 9, 9]).2.1.length = 6 ∧
      ((frameLoop 4 [0, 0, 0, 2, 9, 9]).2.2 = false →
        (frameLoop 4 [0, 0, 0, 2, 9, 9]).2.1.length < 4) ∧
      ((frameLoop 4 [0, 0, 0, 2, 9, 9]).2.2 = true →
        4 ≤ (frameLoop 4 [0, 0, 0, 2, 9, 9]).2.1.length ∧
        (frameLoop 4 [0, 0, 0, 2, 9, 9]).2.1.length - 4 <
          readBE ((frameLoop 4 [0, 0, 0, 2, 9, 9]).2.1.take 4))) :=
  ⟨by decide, packetized_framing_spec 4 (by decide) [0, 0, 0, 2, 9, 9]⟩

/-! ## C2: lateness streak accounting -/

/-- C2 counterexample: after exactly 5 consecutive late images (one per
decode call) the streak counter is 5, which exceeds 4, yet the decode
ratio is still 100 and not 0: the ratio reduction only happens at the
start of the next call, so the claim that the ratio is reduced to 0
once N exceeds 4 fails at N = 5. -/
theorem lateness_streak_soft_threshold_lag :
    (lateRun 5).late_frames = 5 ∧ 4 < (lateRun 5).late_frames ∧
    (lateRun 5).decode_ratio = 100 := by
  decide

/-- C2 (amended): feeding N consecutive late images, one per decode
call, leaves the streak counter at N for every N up to 12, with the
streak-start clock sample recorded at the first increment; the decode
ratio is 0 exactly once N reaches 6, because the reduction to 0 happens
at the start of the first call that begins with more than 4 late
frames; and one subsequent on-time image (for N up to 11, below the
hard drop threshold) resets the streak to 0 and the ratio to 100. -/
theorem lateness_streak_spec : ∀ N : Nat, N ≤ 12 →
    (lateRun N).late_frames = (N : Int) ∧
    (lateRun N).decode_ratio = (if 6 ≤ N then 0 else 100) ∧
    (1 ≤ N → (lateRun N).late_frames_start = 42) ∧
    (N ≤ 11 →
      (decodeCall lateCfg (lateRun N) onTimeCall).1.late_frames = 0 ∧
      (decodeCall lateCfg (lateRun N) onTimeCall).1.decode_ratio = 100) := by
  decide

/-- C2 witness: the lateness-streak specification at N = 7. -/
theorem lateness_streak_spec_witness :
    (7 : Nat) ≤ 12 ∧
    ((lateRun 7).late_frames = 7 ∧
      (lateRun 7).decode_ratio = 0 ∧
      ((1 : Nat) ≤ 7 → (lateRun 7).late_frames_start = 42) ∧
      ((7 : Nat) ≤ 11 →
        (decodeCall lateCfg (lateRun 7) onTimeCall).1.late_frames = 0 ∧
        (decodeCall lateCfg (lateRun 7) onTimeCall).1.decode_ratio = 100)) :=
  ⟨by decide, lateness_streak_spec 7 (by decide)⟩

/-! ## C7: age drop and hard-threshold drop -/

/-- C7: when pacing is not host-controlled (and the call carries no
discontinuity, corruption or preroll flag and the extra data was
already consumed), a positive streak whose start lies more than five
seconds (5000000 clock units) in the past makes the call drop the
buffer outright and decrement the streak counter, which stays
non-negative; and when that age check does not fire but the streak is
at or over the hard threshold of 12, the call likewise drops the
buffer and decrements the counter under the same non-negative bound. -/
theorem late_drop_spec (cfg : Config) (s : DecState) (inp : CallInput)
    (hpace : cfg.pace_control = false) (hd : inp.disc = false)
    (hc : inp.corrupt = false) (hp : inp.preroll = false)
    (hx : s.check_extra = false) :
    ((0 < s.late_frames ∧ 5000000 < inp.now_age - s.late_frames_start) →
      decodeCall cfg s inp =
        ({ s with late_frames := s.late_frames - 1 }, Outcome.dropped) ∧
      0 ≤ s.late_frames - 1) ∧
    (¬ (0 < s.late_frames ∧ 5000000 < inp.now_age - s.late_frames_start) →
      12 ≤ s.late_frames →
      decodeCall cfg s inp =
        ({ s with late_frames := s.late_frames - 1 }, Outcome.dropped) ∧
      0 ≤ s.late_frames - 1) := by
  constructor
  · intro hage
    constructor
    · simp only [decodeCall, lateGate, lateCheck, hd, hc, hx, hp, hpace]
      simp [hage.1, hage.2, hx, hp]
    · omega
  · intro hage hhard
    constructor
    · simp only [decodeCall, lateGate, lateCheck, hd, hc, hx, hp, hpace]
      have h4 : (4 : Int) < s.late_frames := by omega
      have h12 : ¬ s.late_frames < 12 := by omega
      simp [hage, h4, h12, hx, hp]
    · omega

/-- C7 witness: the age-drop branch on a state with 3 late frames whose
streak started six seconds before the age-check clock sample. -/
theorem late_drop_spec_witness :
    decodeCall dropCfg dropState dropInput =
      ({ dropState with late_frames := dropState.late_frames - 1 },
        Outcome.dropped) ∧
    0 ≤ dropState.late_frames - 1 :=
  (late_drop_spec dropCfg dropState dropInput rfl rfl rfl rfl rfl).1
    (by decide)

/-! ## C8: reset idempotence -/

/-- C8: a decode call flagged as a stream discontinuity resets the
lateness state to streak 0 and ratio 100, from every starting state; a
second such call is a no-op on the session state (the model is total,
so no crash is possible), and neither call touches the framing and
configuration state: length-prefix size, packetized flag and the
already-consumed extra-data marker are unchanged. -/
theorem reset_idempotent (cfg : Config) (s : DecState) (inp : CallInput)
    (h : inp.disc = true) :
    (decodeCall cfg (decodeCall cfg s inp).1 inp).1 = (decodeCall cfg s inp).1 ∧
    (decodeCall cfg s inp).1.late_frames = 0 ∧
    (decodeCall cfg s inp).1.decode_ratio = 100 ∧
    (decodeCall cfg s inp).1.length_size = s.length_size ∧
    (decodeCall cfg s inp).1.packetized = s.packetized ∧
    (decodeCall cfg s inp).1.check_extra = s.check_extra := by
  by_cases hr : (100 : Int) = s.decode_ratio <;>
    simp [decodeCall, setDecodeRatio, h, hr]

/-- C8 witness: two discontinuity calls on a fresh session. -/
theorem reset_idempotent_witness :
    (decodeCall resetCfg (decodeCall resetCfg (initState false) resetInput).1
        resetInput).1 =
      (decodeCall resetCfg (initState false) resetInput).1 ∧
    (decodeCall resetCfg (initState false) resetInput).1.late_frames = 0 ∧
    (decodeCall resetCfg (initState false) resetInput).1.decode_ratio = 100 ∧
    (decodeCall resetCfg (initState false) resetInput).1.length_size =
      (initState false).length_size ∧
    (decodeCall resetCfg (initState false) resetInput).1.packetized =
      (initState false).packetized ∧
    (decodeCall resetCfg (initState false) resetInput).1.check_extra =
      (initState false).check_extra :=
  reset_idempotent resetCfg (initState false) resetInput rfl

/-! ## C10: unknown display date treated as on time -/

/-- C10: in the per-image lateness evaluation outside preroll, an image
whose computed display date is non-positive (the host clock returned
unknown) is treated as on time: the streak is reset to 0 and the ratio
to 100; and starting from a non-negative streak, the counter is
incremented exactly when the display date is strictly positive and not
later than the current clock sample. -/
theorem ontime_reset_spec (cfg : Config) (s : DecState) (img : Img)
    (h : 0 ≤ s.late_frames) :
    (img.display_date ≤ 0 →
      (evalImage cfg false s img).late_frames = 0 ∧
      (evalImage cfg false s img).decode_ratio = 100) ∧
    ((evalImage cfg false s img).late_frames = s.late_frames + 1 ↔
      0 < img.display_date ∧ img.display_date ≤ img.now) := by
  constructor
  · intro hdd
    have hcond : ¬ (0 < img.display_date ∧ img.display_date ≤ img.now) := by
      intro hc
      omega
    constructor
    · simp [evalImage, hcond]
    · by_cases hr : (100 : Int) = s.decode_ratio <;>
        simp [evalImage, hcond, setDecodeRatio, hr]
  · constructor
    · intro hinc
      by_cases hc : 0 < img.display_date ∧ img.display_date ≤ img.now
      · exact hc
      · exfalso
        simp [evalImage, hc] at hinc
        omega
    · intro hc
      by_cases h1 : s.late_frames + 1 = 1 <;> simp [evalImage, hc, h1]

/-- C10 witness: an image with display date 0 on a fresh session. -/
theorem ontime_reset_spec_witness :
    (0 : Int) ≤ (initState false).late_frames ∧
    ((unknownDateImg.display_date ≤ 0 →
      (evalImage ontimeCfg false (initState false) unknownDateImg).late_frames
          = 0 ∧
      (evalImage ontimeCfg false (initState false) unknownDateImg).decode_ratio
          = 100) ∧
    ((evalImage ontimeCfg false (initState false) unknownDateImg).late_frames =
        (initState false).late_frames + 1 ↔
      0 < unknownDateImg.display_date ∧
        unknownDateImg.display_date ≤ unknownDateImg.now)) :=
  ⟨by decide, ontime_reset_spec ontimeCfg (initState false) unknownDateImg
    (by decide)⟩

/-! ## C9: the decode ratio only takes the values 0 and 100 -/

/-- Helper for C9: `SetDecodeRatio` preserves the invariant when called
with ratio 0 or 100, the only values any call site passes. -/
lemma setDecodeRatio_inv (cfg : Config) (s : DecState)
    (h : ratioFilterInv cfg s) (r : Int) (hr : r = 0 ∨ r = 100) :
    ratioFilterInv cfg (setDecodeRatio cfg s r) := by
  rcases hr with rfl | rfl <;>
    rcases h with ⟨h1, h2, h3⟩ | ⟨h1, h2⟩
  · simp [setDecodeRatio, ratioFilterInv, h1, h2, h3]
  · simp [setDecodeRatio, ratioFilterInv, h1, h2]
  · simp [setDecodeRatio, ratioFilterInv, h1, h2, h3]
  · simp [setDecodeRatio, ratioFilterInv, h1, h2]

/-- Helper for C9: the ratio-100 reset combined with a streak clear
preserves the invariant. -/
lemma ratioFilterInv_reset (cfg : Config) (t : DecState)
    (h : ratioFilterInv cfg t) :
    ratioFilterInv cfg { setDecodeRatio cfg t 100 with late_frames := 0 } := by
  have h100 := setDecodeRatio_inv cfg t h 100 (Or.inr rfl)
  simpa [ratioFilterInv] using h100

/-- Helper for C9: the per-image lateness evaluation preserves the
invariant. -/
lemma evalImage_inv (cfg : Config) (pre : Bool) (s : DecState) (img : Img)
    (h : ratioFilterInv cfg s) :
    ratioFilterInv cfg (evalImage cfg pre s img) := by
  have h100 := setDecodeRatio_inv cfg s h 100 (Or.inr rfl)
  simp only [evalImage]
  split_ifs <;> simp_all [ratioFilterInv]

/-- Helper for C9: the drain loop preserves the invariant. -/
lemma drainImages_inv (cfg : Config) (pre draw : Bool) :
    ∀ (imgs : List Img) (s : DecState), ratioFilterInv cfg s →
      ratioFilterInv cfg (drainImages cfg pre draw s imgs).1 := by
  intro imgs
  induction imgs with
  | nil => intro s h; simpa [drainImages] using h
  | cons i rest ih =>
    intro s h
    simp only [drainImages]
    split
    · exact evalImage_inv cfg pre s i h
    · exact ih _ (evalImage_inv cfg pre s i h)

/-- Helper for C9: the extra-data handling touches only the framing
fields and preserves the invariant. -/
lemma applyExtra_inv (cfg : Config) (s : DecState) (e : List Nat)
    (h : ratioFilterInv cfg s) :
    ratioFilterInv cfg (applyExtra s e).1 := by
  unfold applyExtra
  split
  · simpa using h
  · simpa [ratioFilterInv] using h

/-- Helper for C9: pushing and draining preserves the invariant. -/
lemma pushAndDrain_inv (cfg : Config) (s : DecState) (inp : CallInput)
    (pre draw : Bool) (h : ratioFilterInv cfg s) :
    ratioFilterInv cfg (pushAndDrain cfg s inp pre draw).1 := by
  unfold pushAndDrain
  split
  · simpa using h
  · exact drainImages_inv cfg pre draw inp.images s h

/-- Helper for C9: the lateness checks preserve the invariant. -/
lemma lateCheck_inv (cfg : Config) (s : DecState) (inp : CallInput)
    (pre draw : Bool) (h : ratioFilterInv cfg s) :
    ratioFilterInv cfg (lateCheck cfg s inp pre draw).1 := by
  simp only [lateCheck]
  split_ifs
  · simpa [ratioFilterInv] using h
  · exact pushAndDrain_inv cfg _ inp _ _
      (setDecodeRatio_inv cfg s h 0 (Or.inl rfl))
  · simpa [ratioFilterInv] using h
  · exact pushAndDrain_inv cfg _ inp _ _ h

/-- Helper for C9: the preroll handling preserves the invariant. -/
lemma lateGate_inv (cfg : Config) (s : DecState) (inp : CallInput)
    (h : ratioFilterInv cfg s) :
    ratioFilterInv cfg (lateGate cfg s inp).1 := by
  simp only [lateGate]
  split
  · exact lateCheck_inv cfg _ inp _ _ (ratioFilterInv_reset cfg s h)
  · exact lateCheck_inv cfg _ inp _ _ h

/-- Helper for C9: one decode call preserves the invariant. -/
lemma decodeCall_inv (cfg : Config) (s : DecState) (inp : CallInput)
    (h : ratioFilterInv cfg s) :
    ratioFilterInv cfg (decodeCall cfg s inp).1 := by
  simp only [decodeCall]
  split
  · exact ratioFilterInv_reset cfg s h
  · by_cases hce : s.check_extra = true
    · have hae : ratioFilterInv cfg
          (applyExtra { s with check_extra := false } inp.extra).1 :=
        applyExtra_inv cfg _ inp.extra (by simpa [ratioFilterInv] using h)
      simp only [hce, if_true]
      split
      · exact hae
      · exact lateGate_inv cfg _ inp hae
    · simp only [hce]
      simp only [Bool.false_eq_true, if_false]
      exact lateGate_inv cfg s inp h

/-- Helper for C9: any sequence of decode calls preserves the
invariant. -/
lemma runCalls_inv (cfg : Config) :
    ∀ (inputs : List CallInput) (s : DecState), ratioFilterInv cfg s →
      ratioFilterInv cfg (runCalls cfg s inputs) := by
  intro inputs
  induction inputs with
  | nil => intro s h; simpa [runCalls] using h
  | cons i rest ih =>
    intro s h
    simpa [runCalls] using ih _ (decodeCall_inv cfg s i h)

/-- C9: the decode ratio is initialised to 100 at session open, and in
every state reachable by any sequence of decode calls it is either 0 or
100 (no intermediate value of the 0 to 100 range is ever used); at
ratio 0 the deblocking and SAO filters are forced off, at ratio 100
they are either untouched or restored to the configured settings, and
`SetDecodeRatio` is a no-op whenever the requested ratio equals the
current one, so the filters are toggled only at actual ratio
transitions. -/
theorem decode_ratio_invariant (cfg : Config) (pk : Bool)
    (inputs : List CallInput) :
    (initState pk).decode_ratio = 100 ∧
    ((runCalls cfg (initState pk) inputs).decode_ratio = 0 ∨
     (runCalls cfg (initState pk) inputs).decode_ratio = 100) ∧
    ((runCalls cfg (initState pk) inputs).decode_ratio = 0 →
      (runCalls cfg (initState pk) inputs).dec_deblocking = some true ∧
      (runCalls cfg (initState pk) inputs).dec_sao = some true) ∧
    ((runCalls cfg (initState pk) inputs).decode_ratio = 100 →
      ((runCalls cfg (initState pk) inputs).dec_deblocking = none ∧
       (runCalls cfg (initState pk) inputs).dec_sao = none) ∨
      ((runCalls cfg (initState pk) inputs).dec_deblocking =
        some cfg.disable_deblocking ∧
       (runCalls cfg (initState pk) inputs).dec_sao =
        some cfg.disable_sao)) ∧
    (∀ (s : DecState) (r : Int), r = s.decode_ratio →
      setDecodeRatio cfg s r = s) := by
  have hinv := runCalls_inv cfg inputs (initState pk)
    (Or.inr ⟨rfl, Or.inl ⟨rfl, rfl⟩⟩)
  refine ⟨rfl, ?_, ?_, ?_, ?_⟩
  · rcases hinv with ⟨h1, _⟩ | ⟨h1, _⟩
    · exact Or.inl h1
    · exact Or.inr h1
  · intro h0
    rcases hinv with ⟨h1, h2, h3⟩ | ⟨h1, _⟩
    · exact ⟨h2, h3⟩
    · omega
  · intro h100
    rcases hinv with ⟨h1, _, _⟩ | ⟨h1, h2⟩
    · omega
    · exact h2
  · intro s r hr
    simp [setDecodeRatio, hr]

/-- C9 witness: the invariant on an empty call sequence, and the no-op
behaviour of `SetDecodeRatio` at the current ratio on a fresh
session. -/
theorem decode_ratio_invariant_witness :
    ((runCalls invCfg (initState false) []).decode_ratio = 0 ∨
     (runCalls invCfg (initState false) []).decode_ratio = 100) ∧
    setDecodeRatio invCfg (initState false) 100 = initState false :=
  ⟨(decode_ratio_invariant invCfg false []).2.1,
   (decode_ratio_invariant invCfg false []).2.2.2.2 (initState false) 100 rfl⟩

/-! ## C3: hvcC round trip -/

set_option maxRecDepth 4000 in
/-- C3: parsing a well-formed hvcC-style blob holding exactly one
parameter-set array with exactly one NAL unit of 2-byte big-endian
size 5 followed by its 5 payload bytes results in exactly one priming
push carrying exactly those bytes, no framing error, the packetized
flag set, and the length-prefix size equal to the low two bits of the
length-size byte at offset 21 plus one. -/
theorem hvcC_roundtrip (ls : Nat) (p : List Nat) (h : p.length = 5) :
    parseExtra 4 (hvcCBlob ls p) =
      { packetized := true, length_size := ls % 4 + 1,
        pushed := [p], err := false } := by
  match p, h with
  | [a, b, c, d, e], _ =>
    simp [hvcCBlob, parseExtra, walkArrays, walkNALs]

/-- C3 witness: the round trip on the payload 1 2 3 4 5 with
length-size byte 3 (giving prefix size 4). -/
theorem hvcC_roundtrip_witness :
    List.length [1, 2, 3, 4, 5] = 5 ∧
    parseExtra 4 (hvcCBlob 3 [1, 2, 3, 4, 5]) =
      { packetized := true, length_size := 3 % 4 + 1,
        pushed := [[1, 2, 3, 4, 5]], err := false } :=
  ⟨by decide, hvcC_roundtrip 3 [1, 2, 3, 4, 5] (by decide)⟩

/-! ## C4: zero-copy pitch validation and the sticky flag -/

/-- C4: when every check of `GetPicture` before the host allocation
passes but the host buffer has a first-plane pitch smaller than the
aligned width times the pixel stride, the picture is rejected with the
already-allocated host buffer released, `GetBuffer` falls back to the
default codec allocator, and the sticky direct-rendering flag moves
from enabled or unknown (any non-zero value) to disabled with the
transition logged; a second rejection from the disabled state keeps the
flag at disabled without logging, so the transition happens and is
logged exactly once. -/
theorem zerocopy_pitch_reject (spec : ImageSpec) (chroma : ChromaFmt)
    (bpp0 bpp1 bpp2 : Nat) (dsc : ChromaDesc) (pic : HostPic) (dru : Int)
    (hgeom : ¬ (alignUp spec.width spec.alignment = 0 ∨ spec.height = 0 ∨
        8192 < alignUp spec.width spec.alignment ∨ 8192 < spec.height))
    (hbits : chroma = ChromaFmt.mono ∨
      (bpp0 = bpp1 ∧ bpp0 = bpp2 ∧ bpp1 = bpp2))
    (hcodec : (GetVlcCodec chroma bpp0).isSome = true)
    (hdepth : ¬ dsc.pixel_bits < bpp0)
    (hplanes : (dsc.plane_factors.all fun f =>
        alignUp spec.width spec.alignment * f.1 / f.2 =
          alignUp (alignUp spec.width spec.alignment * f.1 / f.2)
            spec.alignment) = true)
    (hpitch : (pic.planes.headD ⟨0, 0, 0, 0⟩).pitch <
        alignUp spec.width spec.alignment *
          (pic.planes.headD ⟨0, 0, 0, 0⟩).pixel_pitch)
    (hdru : dru ≠ 0) :
    GetPicture spec chroma bpp0 bpp1 bpp2 dsc (some pic) =
      GPResult.reject true ∧
    getBufferStep dru (GetPicture spec chroma bpp0 bpp1 bpp2 dsc (some pic)) =
      ⟨0, true, true⟩ ∧
    getBufferStep 0 (GetPicture spec chroma bpp0 bpp1 bpp2 dsc (some pic)) =
      ⟨0, false, true⟩ := by
  have hb2 : ¬ (chroma ≠ ChromaFmt.mono ∧
      (bpp0 ≠ bpp1 ∨ bpp0 ≠ bpp2 ∨ bpp1 ≠ bpp2)) := by
    rcases hbits with h | ⟨h1, h2, h3⟩
    · simp [h]
    · simp [h1, h2, h3]
  obtain ⟨c, hc⟩ := Option.isSome_iff_exists.mp hcodec
  have hmain : GetPicture spec chroma bpp0 bpp1 bpp2 dsc (some pic) =
      GPResult.reject true := by
    simp only [GetPicture, hc]
    split_ifs
    rfl
  refine ⟨hmain, ?_, ?_⟩
  · rw [hmain]
    simp [getBufferStep, hdru]
  · rw [hmain]
    simp [getBufferStep]

/-- C4 witness: a 64 x 48 request with alignment 1 on a monochrome
8-bit image whose host buffer plane has pitch 32, starting from the
undecided flag value. -/
theorem zerocopy_pitch_reject_witness :
    (zcPic.planes.headD ⟨0, 0, 0, 0⟩).pitch <
      alignUp zcSpec.width zcSpec.alignment *
        (zcPic.planes.headD ⟨0, 0, 0, 0⟩).pixel_pitch ∧
    GetPicture zcSpec ChromaFmt.mono 8 8 8 zcDsc (some zcPic) =
      GPResult.reject true ∧
    getBufferStep (-1)
        (GetPicture zcSpec ChromaFmt.mono 8 8 8 zcDsc (some zcPic)) =
      ⟨0, true, true⟩ ∧
    getBufferStep 0
        (GetPicture zcSpec ChromaFmt.mono 8 8 8 zcDsc (some zcPic)) =
      ⟨0, false, true⟩ :=
  ⟨by decide,
   zerocopy_pitch_reject zcSpec ChromaFmt.mono 8 8 8 zcDsc zcPic (-1)
    (by decide) (Or.inl rfl) (by decide) (by decide) (by decide) (by decide)
    (by decide)⟩


/-! ## C5: bit-depth repacking in the copy path -/

/-- C5 counterexample: for an 8-bit plane repacked into a 10-bit output
format with source pitch 4 and destination pitch 6, the widening branch
runs and writes 8 bytes per line (one 16-bit sample per source byte),
which exceeds the 4-byte budget min(source pitch, destination pitch),
contradicting the claim that each line copies at most that many
bytes. -/
theorem repack_min_bytes_counterexample :
    copyMode 8 10 = CopyMode.shl8 2 ∧
    lineSiz 4 6 = 4 ∧
    bytesWrittenPerLine (copyMode 8 10) (lineSiz 4 6) = 8 ∧
    ¬ bytesWrittenPerLine (copyMode 8 10) (lineSiz 4 6) ≤ lineSiz 4 6 := by
  decide

/-- C5 (amended): the copy path selects its per-plane branch by
comparing the plane bit depth p with the output format bit depth m: for
m below p every copied sample is shifted right by exactly p - m (a
10-bit plane into an 8-bit output maps 0x3FF to 0xFF and 0x200 to
0x80); for p below m with p above 8 the samples are shifted left by
the difference; for an 8-bit plane with a wider output the samples are
widened with a left shift; equal depths are copied byte for byte. Each
line reads at most min(source pitch, destination pitch) bytes from the
source, and it also writes at most that many bytes except in the 8-bit
widening branch, which stores one 16-bit sample per source byte and
hence writes exactly twice the byte budget. -/
theorem repack_spec (p m src_stride dst_stride : Nat) (src : List Nat) :
    (m < p → copyMode p m = CopyMode.shr (p - m) ∧
      copyLineSamples (copyMode p m) (lineSiz src_stride dst_stride) src =
        (src.take (lineSiz src_stride dst_stride / 2)).map
          (fun v => v / 2 ^ (p - m))) ∧
    (copyMode 10 8 = CopyMode.shr 2 ∧
      copyLineSamples (copyMode 10 8) 4 [0x3FF, 0x200] = [0xFF, 0x80]) ∧
    (p < m → 8 < p → copyMode p m = CopyMode.shl16 (m - p)) ∧
    (p < m → p = 8 → copyMode p m = CopyMode.shl8 (m - p)) ∧
    (p = m → copyMode p m = CopyMode.bytecopy ∧
      copyLineSamples (copyMode p m) (lineSiz src_stride dst_stride) src =
        src.take (lineSiz src_stride dst_stride)) ∧
    bytesReadPerLine (copyMode p m) (lineSiz src_stride dst_stride) ≤
      lineSiz src_stride dst_stride ∧
    (¬ (p = 8 ∧ p < m) →
      bytesWrittenPerLine (copyMode p m) (lineSiz src_stride dst_stride) ≤
        lineSiz src_stride dst_stride) ∧
    (p = 8 → p < m →
      bytesWrittenPerLine (copyMode p m) (lineSiz src_stride dst_stride) =
        2 * lineSiz src_stride dst_stride) := by
  refine ⟨?_, by decide, ?_, ?_, ?_, ?_, ?_, ?_⟩
  · intro hlt
    have hm : copyMode p m = CopyMode.shr (p - m) := by
      simp [copyMode, hlt]
    exact ⟨hm, by rw [hm]; rfl⟩
  · intro h1 h2
    have hn : ¬ m < p := by omega
    simp [copyMode, hn, h1, h2]
  · intro h1 h2
    have hn : ¬ m < p := by omega
    have hn2 : ¬ (p < m ∧ 8 < p) := by omega
    have ha : ¬ m < 8 := by omega
    have hb : 8 < m := by omega
    simp [copyMode, hn, hn2, h1, h2, ha, hb]
  · intro he
    have hn : ¬ m < p := by omega
    have hn2 : ¬ (p < m ∧ 8 < p) := by omega
    have hn3 : ¬ (p < m ∧ p = 8) := by omega
    have hm : copyMode p m = CopyMode.bytecopy := by
      simp [copyMode, hn, hn2, hn3]
    exact ⟨hm, by rw [hm]; rfl⟩
  · by_cases h1 : m < p
    · simp [copyMode, h1, bytesReadPerLine]
      omega
    · by_cases h2 : p < m ∧ 8 < p
      · simp [copyMode, h1, h2, bytesReadPerLine]
        omega
      · by_cases h3 : p < m ∧ p = 8
        · obtain ⟨hlt, hp8⟩ := h3
          subst hp8
          have ha : ¬ m < 8 := by omega
          have hb : 8 < m := by omega
          simp [copyMode, ha, hb, bytesReadPerLine]
        · simp [copyMode, h1, h2, h3, bytesReadPerLine]
  · intro hne
    by_cases h1 : m < p
    · simp [copyMode, h1, bytesWrittenPerLine]
      omega
    · by_cases h2 : p < m ∧ 8 < p
      · simp [copyMode, h1, h2, bytesWrittenPerLine]
        omega
      · by_cases h3 : p < m ∧ p = 8
        · exact absurd ⟨h3.2, h3.1⟩ hne
        · simp [copyMode, h1, h2, h3, bytesWrittenPerLine]
  · intro h1 h2
    subst h1
    have ha : ¬ m < 8 := by omega
    have hb : 8 < m := by omega
    simp [copyMode, ha, hb, bytesWrittenPerLine]

/-- C5 witness: the right-shift branch for a 10-bit plane and an 8-bit
output format on the sample row 0x3FF 0x200. -/
theorem repack_spec_witness :
    (8 : Nat) < 10 ∧
    (copyMode 10 8 = CopyMode.shr 2 ∧
      copyLineSamples (copyMode 10 8) (lineSiz 4 6) [0x3FF, 0x200] =
        ([0x3FF, 0x200].take (lineSiz 4 6 / 2)).map (fun v => v / 2 ^ 2)) :=
  ⟨by decide, (repack_spec 10 8 4 6 [0x3FF, 0x200]).1 (by decide)⟩

/-! ## C6: start-code framing and the new-picture decision -/

/-- C6: on the stream holding a three-byte start code, a slice NAL
(type 1, first-slice flag set) and then a four-byte start code with a
VPS NAL (type 32), the demuxer produces exactly two access units, each
split exactly at its start code; the first one is flagged as a new
picture with the clock reference signalled before it and the
presentation clock incremented, the second is not and has neither; and
in general, for every demux step, the new-picture decision is true
exactly when the NAL type is a slice type (below 32) and its first
slice flag bit is 1, with the clock-reference signal and the clock
increment emitted exactly for such an access unit. -/
theorem demux_startcode_spec :
    demuxRun demoStream.length demoStream =
      [[0, 0, 1, 2, 1, 170], [0, 0, 0, 1, 64, 1, 16]] ∧
    demuxStep demoStream = some ⟨6, 1, 0, 1, 1, true, true, true⟩ ∧
    demuxStep (demoStream.drop 6) =
      some ⟨7, 32, 0, 1, 0, false, false, false⟩ ∧
    (∀ (data : List Nat) (r : StepResult), demuxStep data = some r →
      (r.new_picture = true ↔ r.nal_type < 32 ∧ r.first_slice_flag = 1) ∧
      r.pcr_signal = r.new_picture ∧ r.pcr_increment = r.new_picture) := by
  refine ⟨by decide, by decide, by decide, ?_⟩
  intro data r h
  simp only [demuxStep] at h
  cases hsc : searchStartcode data 0 with
  | none =>
    rw [hsc] at h
    exact absurd h (by simp)
  | some sc =>
    rw [hsc] at h
    by_cases hlen : data.length < sc.1 + sc.2 + 2
    · simp [hlen] at h
    · simp only [hlen, if_false] at h
      obtain rfl := Option.some_inj.mp h
      refine ⟨?_, rfl, rfl⟩
      by_cases hty : data.getD (sc.1 + sc.2) 0 / 2 % 64 < 32 <;> simp [hty]

/-- C6 witness: the new-picture characterisation applied to the first
access unit of the demo stream. -/
theorem demux_startcode_spec_witness :
    ((⟨6, 1, 0, 1, 1, true, true, true⟩ : StepResult).new_picture = true ↔
      (⟨6, 1, 0, 1, 1, true, true, true⟩ : StepResult).nal_type < 32 ∧
      (⟨6, 1, 0, 1, 1, true, true, true⟩ : StepResult).first_slice_flag = 1) ∧
    (⟨6, 1, 0, 1, 1, true, true, true⟩ : StepResult).pcr_signal =
      (⟨6, 1, 0, 1, 1, true, true, true⟩ : StepResult).new_picture ∧
    (⟨6, 1, 0, 1, 1, true, true, true⟩ : StepResult).pcr_increment =
      (⟨6, 1, 0, 1, 1, true, true, true⟩ : StepResult).new_picture :=
  demux_startcode_spec.2.2.2 demoStream ⟨6, 1, 0, 1, 1, true, true, true⟩
    (by decide)

end VlcDe265
